import Mathlib

set_option maxRecDepth 10000

/-!
Verification development for the resilient remote-call orchestration layer of
the pulumi-llm-infra-platform repository: the circuit breaker
(webapp/src/shared/utils/circuit-breaker.ts) and the LLMService orchestrator
(analyzeCode, performCodeAnalysis, parseAnalysisResponse, calculateConfidence,
batchAnalyze, getModelHealth).

Modelling conventions:
* Timestamps (Date values, Date.now()) are natural numbers (milliseconds).
* JavaScript numbers in the confidence computation are IEEE 754 binary64
  values, represented as the exact rationals they denote; `fl` is the
  round-to-nearest-even rounding and `jsAdd` the binary64 addition.
* A fallible operation is an `Except` value; promise rejection is `.error`.
* `undefined` optional fields are `Option`; the JavaScript `x || d` default,
  which treats 0 as falsy, is modelled by `jsOrNat` / `jsOrRat`.
* Each call to `execute` receives the outcome of the wrapped operation as an
  `Except` argument and the current time as a `Nat`; the model returns the
  call result, the updated breaker state and whether the operation was
  invoked.
-/

namespace CircuitBreakerModel

/-- The `CircuitBreakerState` enum of circuit-breaker.ts. -/
inductive CircuitBreakerState where
  | CLOSED
  | OPEN
  | HALF_OPEN
deriving DecidableEq, Repr

/-- The `CircuitBreakerOptions` interface of circuit-breaker.ts.
`expectedErrorRate` and `minimumThroughput` are optional. -/
structure CircuitBreakerOptions where
  failureThreshold : Nat
  recoveryTimeout : Nat
  monitoringPeriod : Nat
  expectedErrorRate : Option ℚ := none
  minimumThroughput : Option Nat := none

/-- The mutable private fields of the `CircuitBreaker` class. -/
structure CB where
  state : CircuitBreakerState
  failureCount : Nat
  successCount : Nat
  totalRequests : Nat
  lastFailureTime : Option Nat
  lastSuccessTime : Option Nat
  stateChangedAt : Nat
  nextAttempt : Option Nat
deriving DecidableEq, Repr

/-- A freshly constructed breaker at time `t0`: CLOSED, all counters zero. -/
def CB.fresh (t0 : Nat) : CB :=
  { state := .CLOSED
    failureCount := 0
    successCount := 0
    totalRequests := 0
    lastFailureTime := none
    lastSuccessTime := none
    stateChangedAt := t0
    nextAttempt := none }

/-- JavaScript `x || d` for an optional numeric option: `undefined` and `0`
are both falsy and give the default. -/
def jsOrNat (x : Option Nat) (d : Nat) : Nat :=
  match x with
  | none => d
  | some v => if v = 0 then d else v

/-- JavaScript `x || d` for an optional rational option. -/
def jsOrRat (x : Option ℚ) (d : ℚ) : ℚ :=
  match x with
  | none => d
  | some v => if v = 0 then d else v

/-- `shouldTrip` of circuit-breaker.ts: failureCount at or above the
threshold, totalRequests at or above the minimum throughput, and the error
rate `failureCount / totalRequests` at or above the expected error rate.
The error rate is written with `mkRat` (exact rational division, equal to
`(failureCount : ℚ) / (totalRequests : ℚ)` by `shouldTrip_errorRate_div`)
so that the definition evaluates by kernel reduction. -/
def shouldTrip (o : CircuitBreakerOptions) (cb : CB) : Bool :=
  let errorRate : ℚ := mkRat cb.failureCount cb.totalRequests
  let minimumThroughput := jsOrNat o.minimumThroughput 10
  decide (cb.failureCount ≥ o.failureThreshold) &&
    decide (cb.totalRequests ≥ minimumThroughput) &&
    decide (errorRate ≥ jsOrRat o.expectedErrorRate (mkRat 1 2))

/-- `shouldAttemptReset`: nextAttempt is set and the current time has
reached it. -/
def shouldAttemptReset (cb : CB) (now : Nat) : Bool :=
  match cb.nextAttempt with
  | none => false
  | some t => decide (now ≥ t)

/-- `setState`: record the new state and the time of the change. -/
def setState (cb : CB) (now : Nat) (s : CircuitBreakerState) : CB :=
  { cb with state := s, stateChangedAt := now }

/-- `scheduleNextAttempt`: nextAttempt := now + recoveryTimeout. -/
def scheduleNextAttempt (o : CircuitBreakerOptions) (cb : CB) (now : Nat) : CB :=
  { cb with nextAttempt := some (now + o.recoveryTimeout) }

/-- `reset`: zero the three counters and clear nextAttempt. -/
def resetCounters (cb : CB) : CB :=
  { cb with failureCount := 0, successCount := 0, totalRequests := 0,
            nextAttempt := none }

/-- `onSuccess`: bump successCount, stamp lastSuccessTime; if HALF_OPEN,
move to CLOSED and reset the counters. -/
def onSuccess (cb : CB) (now : Nat) : CB :=
  let cb := { cb with successCount := cb.successCount + 1,
                      lastSuccessTime := some now }
  if cb.state = .HALF_OPEN then
    resetCounters (setState cb now .CLOSED)
  else
    cb

/-- `onFailure`: bump failureCount, stamp lastFailureTime; if HALF_OPEN,
back to OPEN with a rescheduled nextAttempt; if CLOSED and `shouldTrip`,
trip to OPEN with a scheduled nextAttempt. -/
def onFailure (o : CircuitBreakerOptions) (cb : CB) (now : Nat) : CB :=
  let cb := { cb with failureCount := cb.failureCount + 1,
                      lastFailureTime := some now }
  if cb.state = .HALF_OPEN then
    scheduleNextAttempt o (setState cb now .OPEN) now
  else if cb.state = .CLOSED then
    if shouldTrip o cb then
      scheduleNextAttempt o (setState cb now .OPEN) now
    else
      cb
  else
    cb

/-- The failure a caller of `execute` can observe: either the rejection
thrown while the breaker is OPEN, or the wrapped operation failure
propagated unchanged. -/
inductive CBError (ε : Type) where
  | circuitOpen
  | operationFailed (e : ε)
deriving DecidableEq, Repr

/-- The admission step at the top of `execute`: while OPEN, either move to
HALF_OPEN (when `shouldAttemptReset`) or reject; otherwise pass through. -/
def admission (cb : CB) (now : Nat) : Option CB :=
  if cb.state = .OPEN then
    if shouldAttemptReset cb now then
      some (setState cb now .HALF_OPEN)
    else
      none
  else
    some cb

/-- `execute` of circuit-breaker.ts. `op` is the outcome the wrapped
operation would produce if invoked. Returns the call result, the breaker
state afterwards, and whether the operation was invoked. -/
def execute {α ε : Type} (o : CircuitBreakerOptions) (cb : CB) (now : Nat)
    (op : Except ε α) : Except (CBError ε) α × CB × Bool :=
  match admission cb now with
  | none => (.error .circuitOpen, cb, false)
  | some cb1 =>
    let cb2 := { cb1 with totalRequests := cb1.totalRequests + 1 }
    match op with
    | .ok v => (.ok v, onSuccess cb2 now, true)
    | .error e => (.error (.operationFailed e), onFailure o cb2 now, true)

/-- The `CircuitBreakerMetrics` snapshot returned by `getMetrics`. -/
structure CircuitBreakerMetrics where
  state : CircuitBreakerState
  failureCount : Nat
  successCount : Nat
  totalRequests : Nat
  errorRate : ℚ
  lastFailureTime : Option Nat
  lastSuccessTime : Option Nat
  stateChangedAt : Nat
deriving DecidableEq, Repr

/-- `getMetrics` of circuit-breaker.ts. -/
def getMetrics (cb : CB) : CircuitBreakerMetrics :=
  { state := cb.state
    failureCount := cb.failureCount
    successCount := cb.successCount
    totalRequests := cb.totalRequests
    errorRate := if cb.totalRequests > 0 then
        (cb.failureCount : ℚ) / (cb.totalRequests : ℚ)
      else 0
    lastFailureTime := cb.lastFailureTime
    lastSuccessTime := cb.lastSuccessTime
    stateChangedAt := cb.stateChangedAt }

/-- Run a sequence of calls through the breaker, all at time `now`,
keeping only the breaker state (each list entry is the outcome the wrapped
operation would produce for that call). -/
def runCalls (o : CircuitBreakerOptions) (cb : CB) (now : Nat)
    (ops : List (Except Unit Unit)) : CB :=
  ops.foldl (fun s op => (execute o s now op).2.1) cb

/-- The options of the C1 scenario: failureThreshold 5, minimumThroughput
10, expectedErrorRate 0.5 (recoveryTimeout and monitoringPeriod as in the
LLMService constructor). -/
def scenarioOptions : CircuitBreakerOptions :=
  { failureThreshold := 5
    recoveryTimeout := 60000
    monitoringPeriod := 10000
    expectedErrorRate := some (mkRat 1 2)
    minimumThroughput := some 10 }

/-- Five failures followed by five successes. -/
def failsThenSuccs : List (Except Unit Unit) :=
  List.replicate 5 (.error ()) ++ List.replicate 5 (.ok ())

/-- Five successes followed by five failures. -/
def succsThenFails : List (Except Unit Unit) :=
  List.replicate 5 (.ok ()) ++ List.replicate 5 (.error ())

/-- A breaker stuck OPEN until time 100, used as concrete input. -/
def openBreaker : CB :=
  { state := .OPEN
    failureCount := 5
    successCount := 5
    totalRequests := 10
    lastFailureTime := some 40
    lastSuccessTime := some 30
    stateChangedAt := 40
    nextAttempt := some 100 }

/-- A breaker sitting in HALF_OPEN, used as concrete input. -/
def halfOpenBreaker : CB :=
  { state := .HALF_OPEN
    failureCount := 5
    successCount := 5
    totalRequests := 10
    lastFailureTime := some 40
    lastSuccessTime := some 30
    stateChangedAt := 120
    nextAttempt := some 100 }

end CircuitBreakerModel

namespace LLMServiceModel

open CircuitBreakerModel

/-- A JSON value, the result of a successful `JSON.parse`. -/
inductive Json where
  | null
  | bool (b : Bool)
  | num (q : ℚ)
  | str (s : String)
  | arr (elems : List Json)
  | obj (fields : List (String × Json))
deriving Repr

/-- JavaScript truthiness of a JSON value. -/
def jsTruthy : Json → Bool
  | .null => false
  | .bool b => b
  | .num q => decide (q ≠ 0)
  | .str s => decide (s ≠ "")
  | .arr _ => true
  | .obj _ => true

/-- Truthiness of a possibly-undefined value (`undefined` is falsy). -/
def jsTruthyOpt : Option Json → Bool
  | none => false
  | some v => jsTruthy v

/-- JavaScript property read `v.k`: throws a TypeError on `null`, looks the
key up on an object, and yields `undefined` on the other values (for the
property names used by the service, which are not built-ins of the
primitive wrappers or arrays). -/
def jsGet : Json → String → Except Unit (Option Json)
  | .null, _ => .error ()
  | .obj fs, k => .ok ((fs.find? (fun p => decide (p.1 = k))).map (·.2))
  | _, _ => .ok none

/-- The JavaScript test `v.length > 0` for the values the analysis payload
can carry in `issues`/`suggestions`: a count for arrays and strings;
`undefined > 0`, hence false, otherwise. -/
def jsLenGtZero : Json → Bool
  | .arr xs => decide (xs.length > 0)
  | .str s => decide (s.length > 0)
  | _ => false

/-- `v.length > 0` for a possibly-undefined value. -/
def jsLenGtZeroOpt : Option Json → Bool
  | none => false
  | some v => jsLenGtZero v

/-- `Object.keys(v).length`: the number of keys of an object (objects
produced by `JSON.parse` carry pairwise-distinct keys, so this is the field
count), the number of index keys of an array or string, zero for the other
values. -/
def jsKeysCount : Json → Nat
  | .obj fs => fs.length
  | .arr xs => xs.length
  | .str s => s.length
  | _ => 0

/-- `Object.keys(v).length` for a possibly-undefined value. -/
def jsKeysCountOpt : Option Json → Nat
  | none => 0
  | some v => jsKeysCount v

/-- Floor-of-log2 with explicit structural fuel (the fuel 64 covers every
natural below 2^64; the values reaching it in this development are below
16), so that it evaluates by kernel reduction. -/
def log2Aux : Nat → Nat → Nat
  | 0, _ => 0
  | fuel + 1, n => if 2 ≤ n then log2Aux fuel (n / 2) + 1 else 0

/-- Largest k with 2^k ≤ n, for 1 ≤ n < 2^64. -/
def log2p (n : Nat) : Nat := log2Aux 64 n

/-- Round a rational to the nearest integer, ties to the even integer: the
rounding step of IEEE 754 round-to-nearest-even. -/
def roundEven (x : ℚ) : Int :=
  let f : Int := Rat.floor x
  let frac : ℚ := x - mkRat f 1
  if frac < mkRat 1 2 then f
  else if mkRat 1 2 < frac then f + 1
  else if f % 2 = 0 then f else f + 1

/-- 2^k as an exact rational, for an integer exponent of either sign. -/
def pow2 (k : Int) : ℚ :=
  if 0 ≤ k then mkRat (2 ^ k.toNat) 1 else mkRat 1 (2 ^ (-k).toNat)

/-- The binary exponent of a positive rational q: the integer e with
2^e ≤ q < 2^(e+1). For q < 1 it is found from the floor of 1/q
(written `mkRat q.den q.num` to stay kernel-computable). -/
def binExp (q : ℚ) : Int :=
  if 1 ≤ q then (log2p (Rat.floor q).toNat : Int)
  else
    let j := log2p (Rat.floor (mkRat (q.den : Int) q.num.toNat)).toNat
    if q * pow2 (j : Int) = 1 then -(j : Int) else -(j : Int) - 1

/-- Round a nonnegative rational to the nearest IEEE 754 binary64 value
(53-bit significand, round to nearest, ties to even), represented as the
exact rational it denotes. Zero is exact; subnormal and overflow ranges are
not modelled (every value in this development lies in [0, 2], well inside
the normal range). -/
def fl (q : ℚ) : ℚ :=
  if q = 0 then 0
  else mkRat (roundEven (q * pow2 (52 - binExp q))) 1 * pow2 (binExp q - 52)

/-- JavaScript `+` on numbers: IEEE 754 binary64 addition, i.e. the exact
rational sum rounded back to a binary64 value. -/
def jsAdd (a b : ℚ) : ℚ := fl (a + b)

/-- The binary64 value of the decimal literal `0.5` (exact: 1/2). -/
def lit05 : ℚ := fl (mkRat 5 10)

/-- The binary64 value of the decimal literal `0.2`
(3602879701896397 / 2^54, slightly above 1/5). -/
def lit02 : ℚ := fl (mkRat 2 10)

/-- The binary64 value of the decimal literal `0.1`
(3602879701896397 / 2^55, slightly above 1/10). -/
def lit01 : ℚ := fl (mkRat 1 10)

/-- `calculateConfidence` of LLMService.ts: `let confidence = 0.5`, then
`confidence += 0.2` when `analysis.issues` is truthy with `length > 0`,
`+= 0.2` again for `analysis.suggestions`, `+= 0.1` when
`analysis.metrics` is truthy with at least one key, and finally
`Math.min(confidence, 1.0)`. The numeric literals and the `+=` steps are
IEEE 754 binary64 values and additions (`lit05`/`lit02`/`lit01` and
`jsAdd`), as the JavaScript engine computes them. The argument is the raw
parsed JSON value, so property access can throw (on `null`), modelled by
`Except`. -/
def calculateConfidence (analysis : Json) : Except Unit ℚ := do
  let issues ← jsGet analysis "issues"
  let suggestions ← jsGet analysis "suggestions"
  let metrics ← jsGet analysis "metrics"
  let confidence0 : ℚ := lit05
  let confidence1 : ℚ :=
    if jsTruthyOpt issues && jsLenGtZeroOpt issues then
      jsAdd confidence0 lit02
    else confidence0
  let confidence2 : ℚ :=
    if jsTruthyOpt suggestions && jsLenGtZeroOpt suggestions then
      jsAdd confidence1 lit02
    else confidence1
  let confidence3 : ℚ :=
    if jsTruthyOpt metrics && decide (jsKeysCountOpt metrics > 0) then
      jsAdd confidence2 lit01
    else confidence2
  pure (min confidence3 1)

/-- The `CodeAnalysisRequest` value object (shared/types/llm.ts). -/
structure CodeAnalysisRequest where
  fileName : String
  language : String
  code : String
  analysisType : String
  context : Option String := none
  specificConcerns : Option String := none
  diffContext : Option String := none
deriving DecidableEq, Repr

/-- The value `parseAnalysisResponse` actually builds at runtime: the echoed
request fields, the raw JSON payload fields (defaulted with `|| []` and
`|| \x7b\x7d`), the computed confidence, and processingTime 0. -/
structure CodeAnalysisResponse where
  id : String
  fileName : String
  language : String
  analysisType : String
  timestamp : Nat
  summary : Option Json
  issues : Json
  suggestions : Json
  metrics : Json
  confidence : ℚ
  processingTime : Nat
deriving Repr

/-- The two typed failures of the parsing pipeline: the "Empty response
from LLM" and "Invalid LLM response format" errors. -/
inductive LLMError where
  | emptyResponse
  | invalidResponseFormat
deriving DecidableEq, Repr

/-- `x || []` on a possibly-undefined payload field. -/
def jsOrEmptyArr (v : Option Json) : Json :=
  match v with
  | some x => if jsTruthy x then x else .arr []
  | none => .arr []

/-- `x || \x7b\x7d` on a possibly-undefined payload field. -/
def jsOrEmptyObj (v : Option Json) : Json :=
  match v with
  | some x => if jsTruthy x then x else .obj []
  | none => .obj []

/-- `parseAnalysisResponse` of LLMService.ts. `jp` is the outcome of
`JSON.parse` on the response text: `none` when it throws (not JSON).
`now` models `Date.now()` and `idSuffix` the random id suffix. All
exceptions inside the `try` block (the parse failure and any property
access on a parsed `null`) are caught and rethrown as
`invalidResponseFormat`. -/
def parseAnalysisResponse (jp : Option Json) (request : CodeAnalysisRequest)
    (now : Nat) (idSuffix : String) : Except LLMError CodeAnalysisResponse :=
  match jp with
  | none => .error .invalidResponseFormat
  | some parsed =>
    let body : Except Unit CodeAnalysisResponse := do
      let summary ← jsGet parsed "summary"
      let issues ← jsGet parsed "issues"
      let suggestions ← jsGet parsed "suggestions"
      let metrics ← jsGet parsed "metrics"
      let confidence ← calculateConfidence parsed
      pure
        { id := "analysis_" ++ toString now ++ "_" ++ idSuffix
          fileName := request.fileName
          language := request.language
          analysisType := request.analysisType
          timestamp := now
          summary := summary
          issues := jsOrEmptyArr issues
          suggestions := jsOrEmptyArr suggestions
          metrics := jsOrEmptyObj metrics
          confidence := confidence
          processingTime := 0 }
    match body with
    | .ok r => .ok r
    | .error _ => .error .invalidResponseFormat

/-- `performCodeAnalysis` of LLMService.ts, from the point where the
completion has arrived: `content` is `completion.choices[0]?.message?.content`
(`none` when missing). The falsy check `if (!response)` rejects both a
missing content and the empty string with the empty-response error, before
any parse attempt; otherwise the text is parsed by `jp` (the `JSON.parse`
outcome function) and handed to `parseAnalysisResponse`. -/
def performCodeAnalysis (content : Option String) (jp : String → Option Json)
    (request : CodeAnalysisRequest) (now : Nat) (idSuffix : String) :
    Except LLMError CodeAnalysisResponse :=
  match content with
  | none => .error .emptyResponse
  | some s =>
    if s = "" then .error .emptyResponse
    else parseAnalysisResponse (jp s) request now idSuffix

/-- The metrics observation `analyzeCode` records (`metrics.recordSuccess`
or `metrics.recordError`). -/
inductive MetricEvent where
  | recordSuccess
  | recordError
deriving DecidableEq, Repr

/-- The observable steps of one `analyzeCode` call: the rate-limiter
`consume()` and the circuit-breaker-guarded invocation of the remote
operation. -/
inductive CallEvent where
  | consume
  | remoteCall
deriving DecidableEq, Repr

/-- The failures `analyzeCode` can re-raise: the rate limiter rejection, or
the failure propagated by `circuitBreaker.execute` (the circuit-open
rejection or the operation failure, unchanged). -/
inductive AnalyzeError (ρ ε : Type) where
  | rateLimited (e : ρ)
  | breaker (e : CBError ε)
deriving DecidableEq, Repr

/-- `analyzeCode` of LLMService.ts. `rl` is the outcome of
`rateLimiter.consume()`; `op` is the outcome `performCodeAnalysis` would
produce if invoked (the operation wrapped by `circuitBreaker.execute`).
Returns the result re-raised to the caller, the breaker state afterwards,
the ordered trace of observable steps, and the metrics observation. -/
def analyzeCode {ρ ε : Type} (rl : Except ρ Unit) (o : CircuitBreakerOptions)
    (cb : CB) (now : Nat) (op : Except ε CodeAnalysisResponse) :
    Except (AnalyzeError ρ ε) CodeAnalysisResponse × CB × List CallEvent × MetricEvent :=
  match rl with
  | .error e => (.error (.rateLimited e), cb, [CallEvent.consume], .recordError)
  | .ok _ =>
    match execute o cb now op with
    | (.ok v, cb2, inv) =>
      (.ok v, cb2, CallEvent.consume :: (if inv then [CallEvent.remoteCall] else []),
        .recordSuccess)
    | (.error ce, cb2, inv) =>
      (.error (.breaker ce), cb2, CallEvent.consume :: (if inv then [CallEvent.remoteCall] else []),
        .recordError)

/-- `batchAnalyze` of LLMService.ts. `f` gives each request's settled
outcome of `this.analyzeCode` (fulfilled or rejected). The loop walks the
request list in slices of `batchSize = 5`, awaits all outcomes of a slice
(`Promise.allSettled`), pushes the fulfilled values in order and drops the
rejected ones; the inter-batch delay has no effect on the returned list. -/
def batchAnalyze {ε : Type} (f : CodeAnalysisRequest → Except ε CodeAnalysisResponse)
    (requests : List CodeAnalysisRequest) : List CodeAnalysisResponse :=
  match requests with
  | [] => []
  | q :: qs =>
    ((q :: qs).take 5).filterMap (fun r => (f r).toOption) ++
      batchAnalyze f ((q :: qs).drop 5)
termination_by requests.length
decreasing_by
  simp only [List.length_drop, List.length_cons]
  omega

/-- The record returned by `getModelHealth`. -/
structure ModelHealth where
  status : String
  latency : Nat
  model : String
deriving DecidableEq, Repr

/-- `getModelHealth` of LLMService.ts: issues the probe completion call
directly on the OpenAI client (no circuit breaker, no rate limiter), and
maps its outcome to healthy/unhealthy with the elapsed latency. The second
component records that the probe was invoked, which the source does
unconditionally. -/
def getModelHealth {ε : Type} (probe : Except ε String) (startTime endTime : Nat) :
    ModelHealth × Bool :=
  match probe with
  | .ok m => ({ status := "healthy", latency := endTime - startTime, model := m }, true)
  | .error _ =>
    ({ status := "unhealthy", latency := endTime - startTime, model := "unknown" }, true)

/-- The spec's description of the health operation, for comparison with
`getModelHealth`: the probe call goes through the same
circuit-breaker-guarded path (`circuitBreaker.execute`), so an OPEN breaker
rejects it without invoking the probe. -/
def getModelHealthSpec {ε : Type} (o : CircuitBreakerOptions) (cb : CB) (now : Nat)
    (probe : Except ε String) (startTime endTime : Nat) :
    ModelHealth × CB × Bool :=
  match execute o cb now probe with
  | (.ok m, cb2, inv) =>
    ({ status := "healthy", latency := endTime - startTime, model := m }, cb2, inv)
  | (.error _, cb2, inv) =>
    ({ status := "unhealthy", latency := endTime - startTime, model := "unknown" }, cb2, inv)

/-- A concrete request, used as concrete input in witnesses. -/
def sampleRequest : CodeAnalysisRequest :=
  { fileName := "test.ts"
    language := "typescript"
    code := "function test() \x7b return 1; \x7d"
    analysisType := "quality" }

/-- A concrete response a mocked `analyzeCode` can fulfil with. -/
def sampleResponse (name : String) : CodeAnalysisResponse :=
  { id := "analysis_0_x"
    fileName := name
    language := "typescript"
    analysisType := "quality"
    timestamp := 0
    summary := some (.str "ok")
    issues := .arr []
    suggestions := .arr []
    metrics := .obj []
    confidence := mkRat 5 10
    processingTime := 0 }

/-- A mocked per-request outcome for `batchAnalyze`: the requests for
files b.ts and e.ts fail, every other request fulfils with a response
echoing its fileName. -/
def batchOracle (r : CodeAnalysisRequest) : Except Unit CodeAnalysisResponse :=
  if r.fileName = "b.ts" ∨ r.fileName = "e.ts" then .error ()
  else .ok (sampleResponse r.fileName)

/-- Seven concrete requests (so the batch loop takes two slices: five then
two), of which the second and fifth fail under `batchOracle`. -/
def batchRequests : List CodeAnalysisRequest :=
  ["a.ts", "b.ts", "c.ts", "d.ts", "e.ts", "f.ts", "g.ts"].map
    (fun n => { sampleRequest with fileName := n })

end LLMServiceModel

namespace CircuitBreakerModel

/-- The error rate used by `shouldTrip` is the rational division of the two
counters, as written in the source. -/
theorem shouldTrip_errorRate_div (cb : CB) :
    (mkRat cb.failureCount cb.totalRequests : ℚ) =
      (cb.failureCount : ℚ) / (cb.totalRequests : ℚ) := by
  rw [Rat.mkRat_eq_div]
  norm_num

/-- C1, counterexample: with failureThreshold 5, minimumThroughput 10 and
expectedErrorRate 0.5, submitting ten operations where calls 1 to 5 fail
and calls 6 to 10 succeed does NOT leave the breaker OPEN: it is CLOSED
after the tenth call, because `shouldTrip` is only consulted by
`onFailure` and every failure happens before totalRequests reaches 10. -/
theorem trip_requires_failure_counterexample :
    (runCalls scenarioOptions (CB.fresh 0) 0 failsThenSuccs).state ≠ .OPEN
    ∧ (runCalls scenarioOptions (CB.fresh 0) 0 failsThenSuccs).state = .CLOSED := by
  decide

/-- C1, amended: in the five-failures-then-five-successes scenario the
breaker is CLOSED after every one of the ten calls (in particular it never
trips early: after call 5 the failure count has reached the threshold 5
while totalRequests is only 5, below the minimum throughput of 10); the
breaker trips to OPEN on the tenth call exactly when the order is
reversed, five successes followed by five failures, since only then does a
failure arrive once all three conjuncts of `shouldTrip` hold. -/
theorem trip_scenario_order_dependence :
    ((List.range 11).map fun k =>
        (runCalls scenarioOptions (CB.fresh 0) 0 (failsThenSuccs.take k)).state)
      = List.replicate 11 .CLOSED
    ∧ (runCalls scenarioOptions (CB.fresh 0) 0 (failsThenSuccs.take 5)).failureCount = 5
    ∧ (runCalls scenarioOptions (CB.fresh 0) 0 (failsThenSuccs.take 5)).totalRequests = 5
    ∧ ((List.range 10).map fun k =>
        (runCalls scenarioOptions (CB.fresh 0) 0 (succsThenFails.take k)).state)
      = List.replicate 10 .CLOSED
    ∧ (runCalls scenarioOptions (CB.fresh 0) 0 succsThenFails).state = .OPEN := by
  decide

/-- C2: while the breaker is OPEN and the current time is strictly before
nextAttempt, `execute` rejects with the circuit-open failure and the
wrapped operation is not invoked. -/
theorem open_rejects_without_invoking {α ε : Type} (o : CircuitBreakerOptions)
    (cb : CB) (now t : Nat) (op : Except ε α)
    (hs : cb.state = .OPEN) (hn : cb.nextAttempt = some t) (hlt : now < t) :
    (execute o cb now op).1 = .error .circuitOpen
    ∧ (execute o cb now op).2.2 = false := by
  have hres : shouldAttemptReset cb now = false := by
    simp [shouldAttemptReset, hn]
    omega
  simp [execute, admission, hs, hres]

/-- C2, witness at a concrete OPEN breaker and time 50 < nextAttempt 100. -/
theorem open_rejects_without_invoking_witness :
    openBreaker.state = .OPEN ∧ openBreaker.nextAttempt = some 100 ∧ 50 < 100
    ∧ (execute scenarioOptions openBreaker 50 (Except.ok 0 : Except Unit Nat)).1
        = .error .circuitOpen
    ∧ (execute scenarioOptions openBreaker 50 (Except.ok 0 : Except Unit Nat)).2.2 = false :=
  ⟨rfl, rfl, by decide,
    (open_rejects_without_invoking scenarioOptions openBreaker 50 100
      (Except.ok 0 : Except Unit Nat) rfl rfl (by decide)).1,
    (open_rejects_without_invoking scenarioOptions openBreaker 50 100
      (Except.ok 0 : Except Unit Nat) rfl rfl (by decide)).2⟩

/-- C3: while the breaker is OPEN, once the current time has reached
nextAttempt (the recovery timeout has elapsed past the trip time), the
admission step of the next `execute` call moves the breaker to HALF_OPEN
and the call does invoke the wrapped operation. -/
theorem open_elapsed_transitions_half_open {α ε : Type} (o : CircuitBreakerOptions)
    (cb : CB) (now t : Nat) (op : Except ε α)
    (hs : cb.state = .OPEN) (hn : cb.nextAttempt = some t) (hge : t ≤ now) :
    admission cb now = some (setState cb now .HALF_OPEN)
    ∧ (setState cb now .HALF_OPEN).state = .HALF_OPEN
    ∧ (execute o cb now op).2.2 = true := by
  have hres : shouldAttemptReset cb now = true := by
    simp [shouldAttemptReset, hn]
    omega
  refine ⟨by simp [admission, hs, hres], rfl, ?_⟩
  cases op <;> simp [execute, admission, hs, hres]

/-- C3, witness at a concrete OPEN breaker and time 150 ≥ nextAttempt 100. -/
theorem open_elapsed_transitions_half_open_witness :
    openBreaker.state = .OPEN ∧ openBreaker.nextAttempt = some 100 ∧ 100 ≤ 150
    ∧ admission openBreaker 150 = some (setState openBreaker 150 .HALF_OPEN)
    ∧ (execute scenarioOptions openBreaker 150 (Except.ok 0 : Except Unit Nat)).2.2 = true :=
  ⟨rfl, rfl, by decide,
    (open_elapsed_transitions_half_open scenarioOptions openBreaker 150 100
      (Except.ok 0 : Except Unit Nat) rfl rfl (by decide)).1,
    (open_elapsed_transitions_half_open scenarioOptions openBreaker 150 100
      (Except.ok 0 : Except Unit Nat) rfl rfl (by decide)).2.2⟩

/-- C4: a call executed while the breaker is HALF_OPEN: on success the
breaker moves to CLOSED with failureCount, successCount and totalRequests
all reset to 0; on failure it moves back to OPEN with nextAttempt
rescheduled to now + recoveryTimeout, a strictly later time whenever the
recovery timeout is positive. -/
theorem half_open_success_closes_failure_reopens {α ε : Type}
    (o : CircuitBreakerOptions) (cb : CB) (now : Nat) (v : α) (e : ε)
    (hs : cb.state = .HALF_OPEN) (hrt : 0 < o.recoveryTimeout) :
    ((execute o cb now (Except.ok v : Except ε α)).1 = .ok v
      ∧ (execute o cb now (Except.ok v : Except ε α)).2.1.state = .CLOSED
      ∧ (execute o cb now (Except.ok v : Except ε α)).2.1.failureCount = 0
      ∧ (execute o cb now (Except.ok v : Except ε α)).2.1.successCount = 0
      ∧ (execute o cb now (Except.ok v : Except ε α)).2.1.totalRequests = 0)
    ∧ ((execute o cb now (Except.error e : Except ε α)).1 = .error (.operationFailed e)
      ∧ (execute o cb now (Except.error e : Except ε α)).2.1.state = .OPEN
      ∧ (execute o cb now (Except.error e : Except ε α)).2.1.nextAttempt
          = some (now + o.recoveryTimeout)
      ∧ now < now + o.recoveryTimeout) := by
  have hno : ¬ cb.state = .OPEN := by rw [hs]; simp
  constructor
  · simp [execute, admission, hno, onSuccess, hs, setState, resetCounters]
  · refine ⟨?_, ?_, ?_, by omega⟩ <;>
      simp [execute, admission, hno, onFailure, hs, setState, scheduleNextAttempt]

/-- C4, witness at a concrete HALF_OPEN breaker. -/
theorem half_open_success_closes_failure_reopens_witness :
    halfOpenBreaker.state = .HALF_OPEN ∧ 0 < scenarioOptions.recoveryTimeout
    ∧ (execute scenarioOptions halfOpenBreaker 150 (Except.ok 0 : Except Nat Nat)).2.1.state
        = .CLOSED
    ∧ (execute scenarioOptions halfOpenBreaker 150
        (Except.error 0 : Except Nat Nat)).2.1.nextAttempt = some (150 + 60000) :=
  ⟨rfl, by decide,
    (half_open_success_closes_failure_reopens scenarioOptions halfOpenBreaker 150
      (0 : Nat) (0 : Nat) rfl (by decide)).1.2.1,
    (half_open_success_closes_failure_reopens scenarioOptions halfOpenBreaker 150
      (0 : Nat) (0 : Nat) rfl (by decide)).2.2.2.1⟩

/-- C10: a call rejected because the breaker is OPEN before nextAttempt
leaves the whole breaker record unchanged, so every field of the breaker
and its `getMetrics` snapshot are the same after the rejection as before
it. -/
theorem open_rejection_preserves_state {α ε : Type} (o : CircuitBreakerOptions)
    (cb : CB) (now t : Nat) (op : Except ε α)
    (hs : cb.state = .OPEN) (hn : cb.nextAttempt = some t) (hlt : now < t) :
    (execute o cb now op).2.1 = cb
    ∧ getMetrics (execute o cb now op).2.1 = getMetrics cb := by
  have hres : shouldAttemptReset cb now = false := by
    simp [shouldAttemptReset, hn]
    omega
  have h2 : (execute o cb now op).2.1 = cb := by simp [execute, admission, hs, hres]
  exact ⟨h2, by rw [h2]⟩

/-- C10, witness at a concrete OPEN breaker and time 50 < nextAttempt 100. -/
theorem open_rejection_preserves_state_witness :
    openBreaker.state = .OPEN ∧ openBreaker.nextAttempt = some 100 ∧ 50 < 100
    ∧ (execute scenarioOptions openBreaker 50 (Except.error 0 : Except Nat Unit)).2.1
        = openBreaker :=
  ⟨rfl, rfl, by decide,
    (open_rejection_preserves_state scenarioOptions openBreaker 50 100
      (Except.error 0 : Except Nat Unit) rfl rfl (by decide)).1⟩

end CircuitBreakerModel

namespace LLMServiceModel

open CircuitBreakerModel

/-- C5: the claim (and the repository's own unit test, which expects
`calculateConfidence` to `toBe(1.0)` on a payload with one issue, one
suggestion and one metrics key) says the full payload scores exactly 1.0;
the program's IEEE 754 binary64 arithmetic instead computes
0.5 + 0.2 = 0.7, + 0.2 = 0.8999999999999999, + 0.1 = 0.9999999999999999,
that is (2^53 - 1) / 2^53, which `Math.min(confidence, 1.0)` leaves
strictly below 1. The all-empty payload does produce exactly 0.5 (= 1/2),
and the score is a pure function of the payload by construction. -/
theorem calculateConfidence_float_drift :
    calculateConfidence (Json.obj [("issues", Json.arr [Json.str "x"]),
        ("suggestions", Json.arr [Json.str "y"]),
        ("metrics", Json.obj [("a", Json.num 1)])])
      = Except.ok (mkRat 9007199254740991 9007199254740992)
    ∧ (mkRat 9007199254740991 9007199254740992 : ℚ) ≠ 1
    ∧ (mkRat 9007199254740991 9007199254740992 : ℚ) < 1
    ∧ calculateConfidence (Json.obj [("issues", Json.arr []),
        ("suggestions", Json.arr []), ("metrics", Json.obj [])])
      = Except.ok (mkRat 1 2)
    ∧ (mkRat 1 2 : ℚ) = 1/2 := by
  refine ⟨by with_unfolding_all rfl, by decide, by decide,
    by with_unfolding_all rfl, by norm_num [Rat.mkRat_eq_div]⟩

end LLMServiceModel

namespace LLMServiceModel

open CircuitBreakerModel

/-- C6, counterexample: the text "5" is valid JSON but is not the expected
JSON object shape, yet the parsing pipeline does not fail with the invalid
format error: it succeeds, defaulting issues to the empty array. -/
theorem parse_accepts_nonobject_json :
    (performCodeAnalysis (some "5") (fun _ => some (Json.num 5))
        sampleRequest 0 "x").isOk = true
    ∧ Except.map (fun r => r.issues)
        (performCodeAnalysis (some "5") (fun _ => some (Json.num 5))
          sampleRequest 0 "x") = Except.ok (Json.arr []) := by
  exact ⟨rfl, rfl⟩

/-- C6, amended: a missing content and the empty string fail with the
empty-response error before any parse attempt (the result does not depend
on the parse function); a text that is not parseable as JSON, or that
parses to JSON null, fails with the invalid-format error; any other JSON
value is accepted: a well-formed object payload parses to a result whose
issues and suggestions are exactly the payload arrays (so the lengths
match) and whose fileName echoes the request, a payload without
issues/suggestions fields defaults both to the empty array, every non-null
parsed JSON value (bool, number, string, array or object) is accepted, and
fields that are present but falsy also default to the empty array. -/
theorem parse_empty_invalid_and_defaults :
    (∀ (jp : String → Option Json) (req : CodeAnalysisRequest) (now : Nat)
        (sfx : String),
      performCodeAnalysis none jp req now sfx = .error .emptyResponse
      ∧ performCodeAnalysis (some "") jp req now sfx = .error .emptyResponse)
    ∧ (∀ (jp : String → Option Json) (req : CodeAnalysisRequest) (now : Nat)
        (sfx s : String), s ≠ "" → jp s = none →
      performCodeAnalysis (some s) jp req now sfx
        = .error .invalidResponseFormat)
    ∧ (∀ (jp : String → Option Json) (req : CodeAnalysisRequest) (now : Nat)
        (sfx s : String), s ≠ "" → jp s = some Json.null →
      performCodeAnalysis (some s) jp req now sfx
        = .error .invalidResponseFormat)
    ∧ (∀ (jp : String → Option Json) (req : CodeAnalysisRequest) (now : Nat)
        (sfx s su : String) (is sg : List Json) (ms : List (String × Json)),
      s ≠ "" →
      jp s = some (Json.obj [("summary", Json.str su), ("issues", Json.arr is),
          ("suggestions", Json.arr sg), ("metrics", Json.obj ms)]) →
      Except.map (fun r => r.issues) (performCodeAnalysis (some s) jp req now sfx)
          = Except.ok (Json.arr is)
      ∧ Except.map (fun r => r.suggestions)
            (performCodeAnalysis (some s) jp req now sfx) = Except.ok (Json.arr sg)
      ∧ Except.map (fun r => r.fileName)
            (performCodeAnalysis (some s) jp req now sfx) = Except.ok req.fileName)
    ∧ (∀ (jp : String → Option Json) (req : CodeAnalysisRequest) (now : Nat)
        (sfx s su : String), s ≠ "" →
      jp s = some (Json.obj [("summary", Json.str su)]) →
      Except.map (fun r => r.issues) (performCodeAnalysis (some s) jp req now sfx)
          = Except.ok (Json.arr [])
      ∧ Except.map (fun r => r.suggestions)
            (performCodeAnalysis (some s) jp req now sfx)
          = Except.ok (Json.arr []))
    ∧ (∀ (jp : String → Option Json) (req : CodeAnalysisRequest) (now : Nat)
        (sfx s : String) (j : Json), s ≠ "" → jp s = some j → j ≠ Json.null →
      (performCodeAnalysis (some s) jp req now sfx).isOk = true)
    ∧ (∀ (jp : String → Option Json) (req : CodeAnalysisRequest) (now : Nat)
        (sfx s : String) (v w : Json), s ≠ "" →
      jp s = some (Json.obj [("issues", v), ("suggestions", w)]) →
      jsTruthy v = false → jsTruthy w = false →
      Except.map (fun r => r.issues) (performCodeAnalysis (some s) jp req now sfx)
          = Except.ok (Json.arr [])
      ∧ Except.map (fun r => r.suggestions)
            (performCodeAnalysis (some s) jp req now sfx)
          = Except.ok (Json.arr [])) := by
  refine ⟨fun jp req now sfx => ⟨rfl, rfl⟩, ?_, ?_, ?_, ?_, ?_, ?_⟩
  · intro jp req now sfx s hne hjp
    simp only [performCodeAnalysis]
    rw [if_neg hne, hjp]
    rfl
  · intro jp req now sfx s hne hjp
    simp only [performCodeAnalysis]
    rw [if_neg hne, hjp]
    rfl
  · intro jp req now sfx s su is sg ms hne hjp
    have h : performCodeAnalysis (some s) jp req now sfx
        = parseAnalysisResponse (jp s) req now sfx := by
      simp only [performCodeAnalysis]
      rw [if_neg hne]
    rw [h, hjp]
    exact ⟨rfl, rfl, rfl⟩
  · intro jp req now sfx s su hne hjp
    have h : performCodeAnalysis (some s) jp req now sfx
        = parseAnalysisResponse (jp s) req now sfx := by
      simp only [performCodeAnalysis]
      rw [if_neg hne]
    rw [h, hjp]
    exact ⟨rfl, rfl⟩
  · intro jp req now sfx s j hne hjp hnull
    have h : performCodeAnalysis (some s) jp req now sfx
        = parseAnalysisResponse (jp s) req now sfx := by
      simp only [performCodeAnalysis]
      rw [if_neg hne]
    rw [h, hjp]
    cases j with
    | null => exact absurd rfl hnull
    | bool b => rfl
    | num q => rfl
    | str t => rfl
    | arr xs => rfl
    | obj fs => rfl
  · intro jp req now sfx s v w hne hjp hv hw
    have h : performCodeAnalysis (some s) jp req now sfx
        = parseAnalysisResponse (jp s) req now sfx := by
      simp only [performCodeAnalysis]
      rw [if_neg hne]
    rw [h, hjp]
    constructor
    · have hiss : Except.map (fun r => r.issues)
          (parseAnalysisResponse (some (Json.obj [("issues", v),
            ("suggestions", w)])) req now sfx)
          = Except.ok (jsOrEmptyArr (some v)) := rfl
      rw [hiss]
      simp [jsOrEmptyArr, hv]
    · have hsug : Except.map (fun r => r.suggestions)
          (parseAnalysisResponse (some (Json.obj [("issues", v),
            ("suggestions", w)])) req now sfx)
          = Except.ok (jsOrEmptyArr (some w)) := rfl
      rw [hsug]
      simp [jsOrEmptyArr, hw]

/-- C6, witness: the amended theorem applied at concrete inputs. -/
theorem parse_empty_invalid_and_defaults_witness :
    performCodeAnalysis none (fun _ => none) sampleRequest 0 "x"
        = .error .emptyResponse
    ∧ performCodeAnalysis (some "not json") (fun _ => none) sampleRequest 0 "x"
        = .error .invalidResponseFormat
    ∧ Except.map (fun r => r.issues) (performCodeAnalysis (some "p")
        (fun _ => some (Json.obj [("summary", Json.str "ok"),
          ("issues", Json.arr [Json.str "i1"]), ("suggestions", Json.arr []),
          ("metrics", Json.obj [])])) sampleRequest 0 "x")
        = Except.ok (Json.arr [Json.str "i1"])
    ∧ (performCodeAnalysis (some "true") (fun _ => some (Json.bool true))
        sampleRequest 0 "x").isOk = true
    ∧ Except.map (fun r => r.issues) (performCodeAnalysis (some "z")
        (fun _ => some (Json.obj [("issues", Json.num 0),
          ("suggestions", Json.str "")])) sampleRequest 0 "x")
        = Except.ok (Json.arr []) := by
  have h := parse_empty_invalid_and_defaults
  exact ⟨(h.1 (fun _ => none) sampleRequest 0 "x").1,
    h.2.1 (fun _ => none) sampleRequest 0 "x" "not json" (by decide) rfl,
    (h.2.2.2.1 (fun _ => some (Json.obj [("summary", Json.str "ok"),
        ("issues", Json.arr [Json.str "i1"]), ("suggestions", Json.arr []),
        ("metrics", Json.obj [])])) sampleRequest 0 "x" "p" "ok"
      [Json.str "i1"] [] [] (by decide) rfl).1,
    h.2.2.2.2.2.1 (fun _ => some (Json.bool true)) sampleRequest 0 "x" "true"
      (Json.bool true) (by decide) rfl (fun hx => Json.noConfusion hx),
    (h.2.2.2.2.2.2 (fun _ => some (Json.obj [("issues", Json.num 0),
        ("suggestions", Json.str "")])) sampleRequest 0 "x" "z"
      (Json.num 0) (Json.str "") (by decide) rfl rfl rfl).1⟩

/-- Evaluation of `Except.toOption` on a fulfilled outcome. -/
theorem toOption_ok {ε α : Type} (v : α) :
    (Except.ok v : Except ε α).toOption = some v := rfl

/-- Evaluation of `Except.toOption` on a rejected outcome. -/
theorem toOption_error {ε α : Type} (e : ε) :
    (Except.error e : Except ε α).toOption = none := rfl

/-- Evaluation of `Except.isOk` on a fulfilled outcome. -/
theorem isOk_ok {ε α : Type} (v : α) :
    (Except.ok v : Except ε α).isOk = true := rfl

/-- Evaluation of `Except.isOk` on a rejected outcome. -/
theorem isOk_error {ε α : Type} (e : ε) :
    (Except.error e : Except ε α).isOk = false := rfl

/-- The chunked loop of `batchAnalyze` collects exactly the fulfilled
outcomes in order: it equals a plain filterMap over the request list. -/
theorem batchAnalyze_eq_filterMap {ε : Type}
    (f : CodeAnalysisRequest → Except ε CodeAnalysisResponse) :
    ∀ l, batchAnalyze f l = l.filterMap fun r => (f r).toOption := by
  have key : ∀ (n : Nat) (l : List CodeAnalysisRequest), l.length ≤ n →
      batchAnalyze f l = l.filterMap fun r => (f r).toOption := by
    intro n
    induction n with
    | zero =>
      intro l hl
      have h0 : l = [] := List.length_eq_zero.mp (Nat.le_zero.mp hl)
      subst h0
      simp [batchAnalyze]
    | succ n ih =>
      intro l hl
      cases l with
      | nil => simp [batchAnalyze]
      | cons q qs =>
        rw [batchAnalyze]
        rw [ih ((q :: qs).drop 5)
          (by simp only [List.length_drop, List.length_cons] at hl ⊢; omega)]
        rw [← List.filterMap_append, List.take_append_drop]
  intro l
  exact key l.length l le_rfl

/-- Counting: the filterMap of settled outcomes keeps list length minus the
number of failed requests. -/
theorem length_filterMap_toOption {ε : Type}
    (f : CodeAnalysisRequest → Except ε CodeAnalysisResponse) :
    ∀ l : List CodeAnalysisRequest,
      (l.filterMap fun r => (f r).toOption).length
        = l.length - (l.countP fun r => !(f r).isOk) := by
  intro l
  induction l with
  | nil => rfl
  | cons q qs ih =>
    have hle : (qs.countP fun r => !(f r).isOk) ≤ qs.length :=
      List.countP_le_length _
    rcases hq : f q with e | v <;>
      (simp [List.filterMap_cons, List.countP_cons, hq, toOption_ok,
        toOption_error, isOk_ok, isOk_error, ih]; try omega)

/-- Order: the fileNames of the fulfilled outcomes, in result order, are
the fileNames of the successful requests in request order, whenever each
fulfilled response echoes its request fileName. -/
theorem map_fileName_filterMap {ε : Type}
    (f : CodeAnalysisRequest → Except ε CodeAnalysisResponse)
    (hecho : ∀ r v, f r = .ok v → v.fileName = r.fileName) :
    ∀ l : List CodeAnalysisRequest,
      ((l.filterMap fun r => (f r).toOption).map fun v => v.fileName)
        = (l.filter fun r => (f r).isOk).map fun r => r.fileName := by
  intro l
  induction l with
  | nil => rfl
  | cons q qs ih =>
    rcases hq : f q with e | v
    · simp [List.filterMap_cons, List.filter_cons, hq, toOption_ok,
        toOption_error, isOk_ok, isOk_error, ih]
    · simp [List.filterMap_cons, List.filter_cons, hq, toOption_ok,
        toOption_error, isOk_ok, isOk_error, ih, hecho q v hq]

/-- C7: for every request list and per-request settled outcome, the batch
returns exactly N minus M results where N is the request count and M the
failure count, every returned result is the fulfilled outcome of some
request, and the fileNames of the results preserve the relative order of
the successful requests; the batch function is total, so no individual
failure escapes it. -/
theorem batchAnalyze_partial_failures {ε : Type}
    (f : CodeAnalysisRequest → Except ε CodeAnalysisResponse)
    (reqs : List CodeAnalysisRequest)
    (hecho : ∀ r v, f r = .ok v → v.fileName = r.fileName) :
    (batchAnalyze f reqs).length
        = reqs.length - (reqs.countP fun r => !(f r).isOk)
    ∧ (∀ v ∈ batchAnalyze f reqs, ∃ r ∈ reqs, f r = .ok v)
    ∧ ((batchAnalyze f reqs).map fun v => v.fileName)
        = (reqs.filter fun r => (f r).isOk).map fun r => r.fileName := by
  rw [batchAnalyze_eq_filterMap f reqs]
  refine ⟨length_filterMap_toOption f reqs, ?_, map_fileName_filterMap f hecho reqs⟩
  intro v hv
  rcases List.mem_filterMap.mp hv with ⟨r, hr, hro⟩
  refine ⟨r, hr, ?_⟩
  rcases hfr : f r with e | w <;> rw [hfr] at hro
  · exact absurd hro (by simp [Except.toOption])
  · simp only [Except.toOption] at hro
    cases hro
    rfl

/-- C7, witness: seven requests of which two fail give exactly five
results, in request order. -/
theorem batchAnalyze_partial_failures_witness :
    (batchAnalyze batchOracle batchRequests).length
        = batchRequests.length - (batchRequests.countP fun r => !(batchOracle r).isOk)
    ∧ ((batchAnalyze batchOracle batchRequests).map fun v => v.fileName)
        = ((batchRequests.filter fun r => (batchOracle r).isOk).map
            fun r => r.fileName)
    ∧ ((batchAnalyze batchOracle batchRequests).map fun v => v.fileName)
        = ["a.ts", "c.ts", "d.ts", "f.ts", "g.ts"] := by
  have hecho : ∀ r v, batchOracle r = .ok v → v.fileName = r.fileName := by
    intro r v h
    unfold batchOracle at h
    split at h
    · exact absurd h (by simp)
    · cases h
      rfl
  have h := batchAnalyze_partial_failures batchOracle batchRequests hecho
  refine ⟨h.1, h.2.2, ?_⟩
  rw [h.2.2]
  rfl

/-- C8, counterexample: with the breaker OPEN and before nextAttempt, the
breaker-guarded path described by the spec would reject the probe without
invoking it, but `getModelHealth` invokes the probe unconditionally and
reports healthy: the health probe is not routed through
`circuitBreaker.execute`. -/
theorem health_probe_bypasses_breaker :
    (getModelHealth (Except.ok "gpt-3.5-turbo" : Except Unit String) 100 150).2
        = true
    ∧ (getModelHealth (Except.ok "gpt-3.5-turbo" : Except Unit String)
        100 150).1.status = "healthy"
    ∧ (getModelHealthSpec scenarioOptions openBreaker 50
        (Except.ok "gpt-3.5-turbo" : Except Unit String) 100 150).2.2 = false
    ∧ (getModelHealthSpec scenarioOptions openBreaker 50
        (Except.ok "gpt-3.5-turbo" : Except Unit String) 100 150).1.status
        = "unhealthy" := by
  refine ⟨rfl, rfl, ?_, ?_⟩ <;> decide

/-- C8, amended: `getModelHealth` invokes the probe directly (the breaker
is never consulted) and returns status healthy with the probe model id on
success, status unhealthy with model "unknown" on failure, and in both
cases the elapsed latency. -/
theorem getModelHealth_direct_outcome {ε : Type} (probe : Except ε String)
    (st en : Nat) :
    (getModelHealth probe st en).2 = true
    ∧ (getModelHealth probe st en).1.status
        = (if probe.isOk then "healthy" else "unhealthy")
    ∧ (getModelHealth probe st en).1.latency = en - st
    ∧ (getModelHealth probe st en).1.model
        = (match probe with | .ok m => m | .error _ => "unknown") := by
  rcases probe with e | m <;> simp [getModelHealth, Except.isOk, Except.toBool]

/-- C9: every `analyzeCode` call begins with the rate limiter consume step
(it is the head of the trace), the guarded remote call happens at most
once (no local retry); when consume rejects, the same rate-limit error is
re-raised, an error observation is recorded, the remote call never happens
and the breaker is untouched; when consume succeeds, the call's trace is
consume followed by the breaker-guarded invocation exactly when the
breaker invokes the operation, the breaker state is the one produced by
`execute`, the result re-raises the failure of `execute` unchanged (the
circuit-open rejection or the operation failure), and a success
observation is recorded exactly when the guarded call succeeded. -/
theorem analyzeCode_admission_order {ρ ε : Type} (rl : Except ρ Unit)
    (o : CircuitBreakerOptions) (cb : CB) (now : Nat)
    (op : Except ε CodeAnalysisResponse) :
    ((analyzeCode rl o cb now op).2.2.1).head? = some CallEvent.consume
    ∧ ((analyzeCode rl o cb now op).2.2.1).count CallEvent.remoteCall ≤ 1
    ∧ (∀ e, rl = .error e →
        (analyzeCode rl o cb now op).1 = .error (.rateLimited e)
        ∧ (analyzeCode rl o cb now op).2.2.2 = .recordError
        ∧ (analyzeCode rl o cb now op).2.2.1 = [CallEvent.consume]
        ∧ (analyzeCode rl o cb now op).2.1 = cb)
    ∧ (rl = .ok () →
        (analyzeCode rl o cb now op).2.2.1
          = CallEvent.consume ::
              (if (execute o cb now op).2.2 then [CallEvent.remoteCall] else [])
        ∧ (analyzeCode rl o cb now op).2.1 = (execute o cb now op).2.1
        ∧ (analyzeCode rl o cb now op).1
            = (match (execute o cb now op).1 with
               | .ok v => .ok v
               | .error ce => .error (.breaker ce))
        ∧ ((analyzeCode rl o cb now op).2.2.2 = .recordSuccess
            ↔ ((execute o cb now op).1).isOk = true)) := by
  rcases rl with e | u
  · refine ⟨rfl, Nat.le_trans (List.count_le_length _ _) (Nat.le_of_eq rfl), ?_, ?_⟩
    · intro e2 he2
      injection he2 with h
      subst h
      exact ⟨rfl, rfl, rfl, rfl⟩
    · intro hk
      simp at hk
  · cases u
    rcases hex : execute o cb now op with ⟨res, cb2, inv⟩
    rcases res with ce | v
    · refine ⟨?_, ?_, ?_, ?_⟩
      · simp [analyzeCode, hex]
      · cases inv <;> simp [analyzeCode, hex]
      · intro e2 he2
        simp at he2
      · intro _
        refine ⟨by simp [analyzeCode, hex], by simp [analyzeCode, hex],
          by simp [analyzeCode, hex], ?_⟩
        simp [analyzeCode, hex, Except.isOk, Except.toBool]
    · refine ⟨?_, ?_, ?_, ?_⟩
      · simp [analyzeCode, hex]
      · cases inv <;> simp [analyzeCode, hex]
      · intro e2 he2
        simp at he2
      · intro _
        refine ⟨by simp [analyzeCode, hex], by simp [analyzeCode, hex],
          by simp [analyzeCode, hex], ?_⟩
        simp [analyzeCode, hex, Except.isOk, Except.toBool]

/-- C9, witness: a rejected consume at concrete inputs re-raises the
rate-limit error, records an error, never reaches the remote call, and
leaves the breaker untouched. -/
theorem analyzeCode_admission_order_witness :
    ((analyzeCode (Except.error () : Except Unit Unit) scenarioOptions
        (CB.fresh 0) 0 (Except.ok (sampleResponse "a.ts")
          : Except Unit CodeAnalysisResponse)).2.2.1).head?
        = some CallEvent.consume
    ∧ (analyzeCode (Except.error () : Except Unit Unit) scenarioOptions
        (CB.fresh 0) 0 (Except.ok (sampleResponse "a.ts")
          : Except Unit CodeAnalysisResponse)).1
        = .error (.rateLimited ())
    ∧ (analyzeCode (Except.error () : Except Unit Unit) scenarioOptions
        (CB.fresh 0) 0 (Except.ok (sampleResponse "a.ts")
          : Except Unit CodeAnalysisResponse)).2.1 = CB.fresh 0 := by
  have h := analyzeCode_admission_order (Except.error () : Except Unit Unit)
    scenarioOptions (CB.fresh 0) 0
    (Except.ok (sampleResponse "a.ts") : Except Unit CodeAnalysisResponse)
  exact ⟨h.1, (h.2.2.1 () rfl).1, (h.2.2.1 () rfl).2.2.2⟩

end LLMServiceModel
